import Mathlib

/-!
Shallow embedding of the BudgetBuddy transaction categorization and merge
pipeline (src/BudgetBuddy.py) and verification of the claims of its
specification.

Modelling conventions:

* Python dicts used as records become the structure `Transaction`; the CSV
  `Amount` strings and Python floats are modelled as exact rationals (the
  program only parses, negates, takes absolute values of and sums them, and
  `str`/`float` round trips are modelled as the identity on the value).
* Python dicts used as ordered mappings (`keyword_mapping`,
  `categorized_transactions`, `budget`) become association lists in insertion
  order; `dictInsert` updates the first matching key in place and otherwise
  appends at the end, matching Python dict semantics (Python dicts always have
  unique keys, so theorems about arbitrary association lists carry a
  no-duplicate-keys hypothesis where the distinction matters).
* `re.search(r'\b{}\b'.format(value), description, re.IGNORECASE)` is modelled
  by a regular-expression matcher for the pattern fragment the program builds:
  a \b anchor, a sequence of literal characters each optionally followed by a
  one-or-more repetition `+`, and a closing \b anchor.  Phrases containing any
  other regex metacharacter (parentheses, brackets, `*`, `?`, `|`, `^`, `$`,
  `.`, a backslash, braces, or a repetition with nothing to repeat) are outside
  the fragment and yield `none`, the model of a raised `re.error`; word
  characters follow the ASCII word class `[a-zA-Z0-9_]`.
* Fallible computations (a `re.error` escaping `categorize_transactions`)
  return `Except Unit`.
* File I/O is reduced to its data content: the persisted store is the list of
  previously appended rows, `write_csv` is list append, and `read_csv` on the
  store returns the rows unchanged.  `initialize_csv`, chart rendering, config
  load/save and the interactive prompt are plumbing outside the embedded core.
* The in-place mutations of the source (`transaction['Category'] = ...`,
  amount rewrites inside `merge_transactions`) only ever touch the `Category`
  and `Amount` fields, while every lookup that crosses a mutation boundary
  (`process_and_store_transactions` searching the partition) reads only the
  never-mutated `Date`/`Description` fields, so the pipeline is modelled by
  pure functions threading the observable state (store rows, partition,
  uncategorized list).  The `new_transactions` write-back at the end of
  `process_and_store_transactions` mutates a list that `main` never reads
  again and is not modelled.
-/

deriving instance DecidableEq for Except

namespace BudgetBuddy

/-- ASCII model of Python `str.lower`, used for `description.lower()` and the
case comparisons of the source. -/
def strLower (s : String) : String := String.mk (s.data.map Char.toLower)

/-- Word-character test of the regex word class `[a-zA-Z0-9_]` (ASCII scope of
Python `\w`). -/
def isWordChar (c : Char) : Bool := c.isAlphanum || c == '_'

/-- Word-character test lifted to an optional character; the absent character
beyond either end of the string counts as a non-word character. -/
def isWordOpt : Option Char → Bool
  | none => false
  | some c => isWordChar c

/-- Word-boundary test between two adjacent positions, as Python `\b`: exactly
one side is a word character. -/
def wordBoundary (a b : Option Char) : Bool := Bool.xor (isWordOpt a) (isWordOpt b)

/-- Case-insensitive character comparison, the effect of `re.IGNORECASE` on
literal characters (ASCII scope). -/
def charEqIC (c d : Char) : Bool := c.toLower == d.toLower

/-- Characters that are regex metacharacters other than a `+` following a
literal; phrases containing them are outside the modelled pattern fragment.
The brace characters are written by code point to keep them out of the
source text. -/
def isRegexMeta (c : Char) : Bool :=
  c == '(' || c == ')' || c == '[' || c == ']' || c == '*' || c == '?' ||
  c == '|' || c == '^' || c == '$' || c == '.' || c == '\\' || c == '+' ||
  c.toNat == 123 || c.toNat == 125

/-- Parses a trigger phrase into the body of the pattern
`\b<phrase>\b`: a list of literal characters, each flagged when followed by a
one-or-more repetition `+`.  Returns `none` when the phrase falls outside the
modelled fragment; in particular for the phrase `(` the Python pattern
`\b(\b` raises `re.error`, and a leading `+` has nothing to repeat. -/
def parsePhrase : List Char → Option (List (Char × Bool))
  | [] => some []
  | c :: '+' :: rest2 =>
    if isRegexMeta c then none
    else (parsePhrase rest2).map (fun items => (c, true) :: items)
  | c :: rest =>
    if isRegexMeta c then none
    else (parsePhrase rest).map (fun items => (c, false) :: items)

/-- All states (previous character, remaining input) reachable by consuming one
or more leading copies of `c`, case-insensitively. -/
def runStates (c : Char) : List Char → List (Option Char × List Char)
  | [] => []
  | d :: s2 => if charEqIC c d then (some d, s2) :: runStates c s2 else []

/-- Matches a parsed pattern body against a prefix of `s`, handing the
continuation the last consumed character and the remaining input.  Existence
semantics: `true` iff some way of consuming repetitions succeeds, which
coincides with Python backtracking search viewed as a boolean. -/
def matchSeq : List (Char × Bool) → Option Char → List Char → (Option Char → List Char → Bool) → Bool
  | [], prev, s, k => k prev s
  | (c, false) :: rest, _, s, k =>
    match s with
    | [] => false
    | d :: s2 => charEqIC c d && matchSeq rest (some d) s2 k
  | (c, true) :: rest, _, s, k =>
    (runStates c s).any (fun st => matchSeq rest st.1 st.2 k)

/-- Match of the full pattern `\b<items>\b` at the current position, given the
character immediately before the position. -/
def searchHere (items : List (Char × Bool)) (prev : Option Char) (s : List Char) : Bool :=
  wordBoundary prev s.head? && matchSeq items prev s (fun p2 rest => wordBoundary p2 rest.head?)

/-- Scan of every start position, as `re.search` does. -/
def reSearchFrom (items : List (Char × Bool)) : Option Char → List Char → Bool
  | prev, [] => searchHere items prev []
  | prev, c :: s2 => searchHere items prev (c :: s2) || reSearchFrom items (some c) s2

/-- Model of `re.search(r'\b{}\b'.format(phrase), desc, re.IGNORECASE)`
viewed as a boolean: `some b` when the phrase is in the modelled fragment,
`none` when compiling the pattern is modelled as raising `re.error`. -/
def searchPhrase (phrase desc : String) : Option Bool :=
  (parsePhrase phrase.data).map (fun items => reSearchFrom items none desc.data)

/-- A transaction record: the canonical `{Date, Description, Amount, Category}`
shape of the source's row dicts.  Raw input rows have no `Category` key
(`category = none`); categorized and persisted rows have one. -/
structure Transaction where
  date : String
  description : String
  amount : ℚ
  category : Option String
deriving DecidableEq, Repr

/-- Lookup in an insertion-ordered association list (Python `d.get(k)` /
`d[k]`). -/
def dictLookup {α : Type} : List (String × α) → String → Option α
  | [], _ => none
  | kv :: rest, k => if kv.1 = k then some kv.2 else dictLookup rest k

/-- Update-or-append in an insertion-ordered association list (Python
`d[k] = v`): replaces the value at the first matching key in place, otherwise
appends at the end. -/
def dictInsert {α : Type} : List (String × α) → String → α → List (String × α)
  | [], k, v => [(k, v)]
  | kv :: rest, k, v => if kv.1 = k then (k, v) :: rest else kv :: dictInsert rest k v

/-- The partition update of `categorize_transactions`: create the bucket if
absent, then append the transaction to it. -/
def appendToBucket (d : List (String × List Transaction)) (k : String) (t : Transaction) :
    List (String × List Transaction) :=
  dictInsert d k ((dictLookup d k).getD [] ++ [t])

/-- Inner loop of lines 111-115 of the source over one category's phrase list:
the first phrase whose pattern matches the description wins and breaks the
inner loop; a phrase outside the modelled fragment raises (`.error`), and
phrases after the first match are never compiled. -/
def firstMatch : List String → String → Except Unit (Option String)
  | [], _ => .ok none
  | p :: ps, desc =>
    match searchPhrase p desc with
    | none => .error ()
    | some true => .ok (some p)
    | some false => firstMatch ps desc

/-- Outer loop of lines 110-115 of the source over the keyword mapping: the
inner `break` leaves only the phrase loop, so the scan continues through every
later category, and a match there overwrites the accumulator. -/
def matchLoop : List (String × List String) → String → String × Option String →
    Except Unit (String × Option String)
  | [], _, acc => .ok acc
  | kv :: rest, desc, acc =>
    match firstMatch kv.2 desc with
    | .error e => .error e
    | .ok none => matchLoop rest desc acc
    | .ok (some v) => matchLoop rest desc (kv.1, some v)

/-- The matcher of `categorize_transactions` for one transaction: lower-case
the description, then run the category scan starting from
`("Uncategorized", None)`. -/
def matchCategory (keyword_mapping : List (String × List String)) (description : String) :
    Except Unit (String × Option String) :=
  matchLoop keyword_mapping (strLower description) ("Uncategorized", none)

/-- Body of the transaction loop of `categorize_transactions` (lines 105-126):
match, drop `Ignore` results, set the `Category` field, append to the bucket
(creating it if new), and filter the just-appended transaction out of the
uncategorized accumulator. -/
def categorizeGo (km : List (String × List String)) :
    List Transaction → List (String × List Transaction) → List Transaction →
    Except Unit (List (String × List Transaction) × List Transaction)
  | [], part, unc => .ok (part, unc)
  | t :: ts, part, unc =>
    match matchCategory km t.description with
    | .error e => .error e
    | .ok acc =>
      if acc.1 = "Ignore" then categorizeGo km ts part unc
      else
        categorizeGo km ts (appendToBucket part acc.1 { t with category := some acc.1 })
          (unc.filter (fun u => decide (u ≠ { t with category := some acc.1 })))

/-- `categorize_transactions(transactions, keyword_mapping)` (lines 100-127):
buckets are pre-seeded empty for every keyword-mapping category and the
uncategorized accumulator starts empty. -/
def categorize_transactions (transactions : List Transaction)
    (keyword_mapping : List (String × List String)) :
    Except Unit (List (String × List Transaction) × List Transaction) :=
  categorizeGo keyword_mapping transactions
    (keyword_mapping.map (fun kv => (kv.1, ([] : List Transaction)))) []

/-- The combine step shared by lines 77-81 and 89-93 of the source: overwrite
the amount of the last already-emitted record with the sum of its magnitude
and the pending record's magnitude. -/
def combineIntoLast : List Transaction → Transaction → List Transaction
  | [], _ => []
  | [x], c => [{ x with amount := |x.amount| + |c.amount| }]
  | x :: y :: rest, c => x :: combineIntoLast (y :: rest) c

/-- Scan loop of `merge_transactions` (lines 75-87).  State: the emitted list
and the pending `current_transaction`.  A record equal to the pending one in
`Date` and `Description` (exact, case-sensitive comparison in the source) is
appended to the output; a differing record triggers the new-group branch,
which either folds the pending record's magnitude into the last emitted record
or, when nothing has been emitted yet, emits a normalized copy of the pending
record. -/
def mergeLoop : List Transaction → List Transaction → Option Transaction →
    List Transaction × Option Transaction
  | [], merged, current => (merged, current)
  | t :: ts, merged, current =>
    match current with
    | none => mergeLoop ts merged (some t)
    | some c =>
      if c.date ≠ t.date ∨ c.description ≠ t.description then
        if 0 < merged.length then
          mergeLoop ts (combineIntoLast merged c) (some t)
        else
          mergeLoop ts [{ date := c.date, description := c.description,
                          amount := |c.amount|, category := c.category }] (some t)
      else
        mergeLoop ts (merged ++ [t]) (some c)

/-- `merge_transactions(transactions)` (lines 70-98): run the scan, fold the
final pending record into the last emitted record when one exists (there is no
trailing branch emitting a pending record into an empty output), then rewrite
every amount to its absolute value. -/
def merge_transactions (transactions : List Transaction) : List Transaction :=
  let res := mergeLoop transactions [] none
  let merged :=
    match res.2 with
    | some c => if 0 < res.1.length then combineIntoLast res.1 c else res.1
    | none => res.1
  merged.map (fun t => { t with amount := |t.amount| })

/-- Bucket scan of lines 181-187 of the source for one transaction: every
bucket holding a record with the same `Date` and case-insensitively equal
`Description` overwrites the category (the inner `break` leaves only the
record loop) and contributes its first such record to `transactions_to_remove`.
Returns the final category and the found records in bucket order. -/
def searchBuckets (part : List (String × List Transaction)) (date desc : String) :
    String × List Transaction :=
  part.foldl
    (fun acc ckv =>
      match ckv.2.find? (fun tr => tr.date == date && strLower tr.description == strLower desc) with
      | some tr => (ckv.1, acc.2 ++ [tr])
      | none => acc)
    ("Uncategorized", [])

/-- Accumulated state of `process_and_store_transactions`: the rows staged for
`write_csv`, the `transactions_to_remove` list, and the shared
`uncategorized_transactions` list. -/
structure PasState where
  processed : List Transaction
  toRemove : List Transaction
  uncategorized : List Transaction
deriving DecidableEq, Repr

/-- One iteration of the loop of lines 175-192: resolve the category through
the partition, append still-uncategorized transactions to the uncategorized
list (carrying the in-place `Category` update when a bucket named
`Uncategorized` matched), and stage the output row with the negated amount. -/
def pasStep (part : List (String × List Transaction)) (st : PasState) (t : Transaction) :
    PasState :=
  let res := searchBuckets part t.date t.description
  { processed := st.processed ++
      [{ date := t.date, description := t.description, amount := -t.amount,
         category := some res.1 }],
    toRemove := st.toRemove ++ res.2,
    uncategorized :=
      if res.1 = "Uncategorized" then
        st.uncategorized ++ [if res.2.isEmpty then t else { t with category := some res.1 }]
      else st.uncategorized }

/-- `process_and_store_transactions` (lines 170-198) reduced to its observable
effect: the staged rows appended to the store by `write_csv`, the collected
removals, and the updated uncategorized list. -/
def process_and_store_transactions (transactions : List Transaction)
    (categorized : List (String × List Transaction)) (uncategorized : List Transaction) :
    PasState :=
  transactions.foldl (pasStep categorized) ⟨[], [], uncategorized⟩

/-- The deduplication step of `main` (line 290):
`[t for t in transactions if t not in existing_transactions]`, whole-record
equality against the rows read back from the persisted store. -/
def dedupe (newRecords existing : List Transaction) : List Transaction :=
  newRecords.filter (fun t => decide (t ∉ existing))

/-- Modelled from the spec: the Deduplicator contract of section 4.4, written
from the spec's words for comparison with the code's `dedupe` — keep exactly
the new records whose (date, description) pair, case-insensitive on the
description, is not present among the existing records.  The spec's contract
has no implementation of its own in the source; `main` line 290 is the code
this is compared against. -/
def dedupeSpec (newRecords existing : List Transaction) : List Transaction :=
  newRecords.filter (fun t =>
    !(existing.any (fun e => e.date == t.date && strLower e.description == strLower t.description)))

/-- The per-bucket loop of `main` (lines 294-297): merge each non-empty bucket
and run `process_and_store_transactions` on the result, threading the store
rows and the uncategorized list. -/
def runBuckets (part : List (String × List Transaction)) :
    List (String × List Transaction) → List Transaction → List Transaction →
    List Transaction × List Transaction
  | [], store, unc => (store, unc)
  | ckv :: rest, store, unc =>
    if 0 < ckv.2.length then
      let st := process_and_store_transactions (merge_transactions ckv.2) part unc
      runBuckets part rest (store ++ st.processed) st.uncategorized
    else runBuckets part rest store unc

/-- One run of the pipeline of `main` (lines 285-297) over its data: read the
store, read the raw batch, deduplicate, categorize, then merge and persist per
bucket.  Returns the new store contents, the partition, and the uncategorized
list. -/
def runPipeline (store raw : List Transaction) (km : List (String × List String)) :
    Except Unit (List Transaction × List (String × List Transaction) × List Transaction) :=
  match categorize_transactions (dedupe raw store) km with
  | .error e => .error e
  | .ok pu =>
    let res := runBuckets pu.1 pu.1 store pu.2
    .ok (res.1, pu.1, res.2)

/-- The `total_spent` comprehension of line 202: per category, the sum of the
absolute amounts of its bucket. -/
def spentTable (part : List (String × List Transaction)) : List (String × ℚ) :=
  part.map (fun ckv => (ckv.1, (ckv.2.map (fun t => |t.amount|)).sum))

/-- One category's budget status row. -/
structure CategoryStatus where
  budget : ℚ
  spent : ℚ
  percentage_used : ℚ
deriving DecidableEq, Repr

/-- `calculate_budget_status` (lines 200-209), its pure result: the status
dict built with `percentage_used = 0` (line 205) and then updated to
`spent / budget * 100` exactly for the categories with positive budget
(lines 207-209). -/
def calculate_budget_status (part : List (String × List Transaction))
    (budget : List (String × ℚ)) : List (String × CategoryStatus) :=
  let ts := spentTable part
  let init := part.map (fun ckv =>
    (ckv.1, ({ budget := (dictLookup budget ckv.1).getD 0,
               spent := (dictLookup ts ckv.1).getD 0,
               percentage_used := 0 } : CategoryStatus)))
  init.map (fun cs =>
    if 0 < cs.2.budget then
      (cs.1, { cs.2 with percentage_used := cs.2.spent / cs.2.budget * 100 })
    else cs)

/-- The overage warnings printed by lines 212-215: a category is reported iff
`spent > budget` and `budget > 0`, with amount `abs(spent - budget)`. -/
def overage_warnings (statuses : List (String × CategoryStatus)) : List (String × ℚ) :=
  statuses.filterMap (fun cs =>
    if cs.2.spent > cs.2.budget ∧ 0 < cs.2.budget then some (cs.1, |cs.2.spent - cs.2.budget|)
    else none)

/-- Whether the matcher resolves a transaction to the reserved category
`Ignore` (line 117 of the source drops exactly these). -/
def ignoreMatched (km : List (String × List String)) (t : Transaction) : Bool :=
  match matchCategory km t.description with
  | .ok acc => acc.1 == "Ignore"
  | .error _ => false

/-- Boolean contiguous-sublist test on character lists, used to state that a
phrase does not occur literally inside a description. -/
def listInfixB (p : List Char) : List Char → Bool
  | [] => p.isEmpty
  | c :: rest => p.isPrefixOf (c :: rest) || listInfixB p rest

/-- Literal (non-regex) substring test between strings. -/
def literalSubstring (p s : String) : Bool := listInfixB p.data s.data

/-- An association list with pairwise distinct keys, the invariant every list
standing for a Python dict satisfies. -/
@[reducible] def keysNodup {α : Type} (d : List (String × α)) : Prop := (d.map Prod.fst).Nodup

/-- Concrete raw batch used to exercise a repeated pipeline run: two
transactions of one category, so that the merge step emits a row. -/
def rerunRaw : List Transaction :=
  [⟨"2024-01-01", "Grocery A", 3, none⟩, ⟨"2024-01-01", "Grocery B", 2, none⟩]

/-- Keyword mapping for the repeated-run example. -/
def rerunKm : List (String × List String) := [("Food", ["grocery"])]

/-- The single store row one run of the pipeline on `rerunRaw` appends. -/
def rerunRow : Transaction := ⟨"2024-01-01", "Grocery A", -5, some "Food"⟩

/-- Concrete partition for the overage example: one category with 350 spent. -/
def overagePart : List (String × List Transaction) :=
  [("Dining", [⟨"2024-01-03", "Resto", 350, some "Dining"⟩])]

/-- Budget mapping for the overage example: 300 for the category. -/
def overageBudget : List (String × ℚ) := [("Dining", 300)]

theorem dictLookup_dictInsert_self {α : Type} (d : List (String × α)) (k : String) (v : α) :
    dictLookup (dictInsert d k v) k = some v := by
  induction d with
  | nil => simp [dictInsert, dictLookup]
  | cons kv rest ih =>
    by_cases h : kv.1 = k
    · simp [dictInsert, dictLookup, h]
    · simp [dictInsert, dictLookup, h, ih]

theorem dictLookup_dictInsert_ne {α : Type} (d : List (String × α)) (k k2 : String) (v : α)
    (h : k2 ≠ k) : dictLookup (dictInsert d k v) k2 = dictLookup d k2 := by
  induction d with
  | nil => simp [dictInsert, dictLookup, Ne.symm h]
  | cons kv rest ih =>
    by_cases h2 : kv.1 = k
    · subst h2
      simp [dictInsert, dictLookup, Ne.symm h]
    · by_cases h3 : kv.1 = k2
      · simp [dictInsert, dictLookup, h2, h3, h]
      · simp [dictInsert, dictLookup, h2, h3, h, ih]

theorem matchLoop_append (xs ys : List (String × List String)) (desc : String)
    (acc : String × Option String) :
    matchLoop (xs ++ ys) desc acc =
      match matchLoop xs desc acc with
      | .error e => .error e
      | .ok acc2 => matchLoop ys desc acc2 := by
  induction xs generalizing acc with
  | nil => simp [matchLoop]
  | cons kv rest ih =>
    simp only [List.cons_append, matchLoop]
    cases firstMatch kv.2 desc with
    | error e => rfl
    | ok o =>
      cases o with
      | none => exact ih acc
      | some v => exact ih (kv.1, some v)

theorem categorizeGo_unc_nil (km : List (String × List String)) (ts : List Transaction) :
    ∀ part part2 unc2, categorizeGo km ts part [] = .ok (part2, unc2) → unc2 = [] := by
  induction ts with
  | nil =>
    intro part part2 unc2 h
    simp [categorizeGo] at h
    exact h.2
  | cons t ts ih =>
    intro part part2 unc2 h
    cases hm : matchCategory km t.description with
    | error e =>
      simp only [categorizeGo, hm] at h
      exact absurd h (by simp)
    | ok acc =>
      simp only [categorizeGo, hm] at h
      by_cases hi : acc.1 = "Ignore"
      · rw [if_pos hi] at h
        exact ih _ _ _ h
      · rw [if_neg hi] at h
        simp only [List.filter_nil] at h
        exact ih _ _ _ h

theorem categorizeGo_mem_preserved (km : List (String × List String)) (ts : List Transaction) :
    ∀ part unc part2 unc2 c b x,
      categorizeGo km ts part unc = .ok (part2, unc2) →
      dictLookup part c = some b → x ∈ b →
      ∃ b2, dictLookup part2 c = some b2 ∧ x ∈ b2 := by
  induction ts with
  | nil =>
    intro part unc part2 unc2 c b x h hl hx
    simp [categorizeGo] at h
    exact ⟨b, h.1 ▸ hl, hx⟩
  | cons t ts ih =>
    intro part unc part2 unc2 c b x h hl hx
    cases hm : matchCategory km t.description with
    | error e =>
      simp only [categorizeGo, hm] at h
      exact absurd h (by simp)
    | ok acc =>
      simp only [categorizeGo, hm] at h
      by_cases hi : acc.1 = "Ignore"
      · rw [if_pos hi] at h
        exact ih _ _ _ _ _ _ _ h hl hx
      · rw [if_neg hi] at h
        by_cases hc : c = acc.1
        · subst hc
          have hl2 : dictLookup (appendToBucket part acc.1 { t with category := some acc.1 }) acc.1
              = some (b ++ [{ t with category := some acc.1 }]) := by
            unfold appendToBucket
            rw [dictLookup_dictInsert_self, hl]
            rfl
          exact ih _ _ _ _ _ _ _ h hl2 (List.mem_append_left _ hx)
        · have hl2 : dictLookup (appendToBucket part acc.1 { t with category := some acc.1 }) c
              = some b := by
            unfold appendToBucket
            rw [dictLookup_dictInsert_ne _ _ _ _ hc, hl]
          exact ih _ _ _ _ _ _ _ h hl2 hx

theorem categorizeGo_mem (km : List (String × List String)) (ts : List Transaction) :
    ∀ part unc part2 unc2,
      categorizeGo km ts part unc = .ok (part2, unc2) →
      ∀ t ∈ ts, ∀ cat kw, matchCategory km t.description = .ok (cat, kw) → cat ≠ "Ignore" →
        ∃ b, dictLookup part2 cat = some b ∧ ({ t with category := some cat }) ∈ b := by
  induction ts with
  | nil =>
    intro part unc part2 unc2 h t ht
    exact absurd ht (List.not_mem_nil t)
  | cons t0 ts ih =>
    intro part unc part2 unc2 h t ht cat kw hm hni
    cases hm0 : matchCategory km t0.description with
    | error e =>
      simp only [categorizeGo, hm0] at h
      exact absurd h (by simp)
    | ok acc =>
      simp only [categorizeGo, hm0] at h
      rcases List.mem_cons.mp ht with rfl | hts
      · have hacc : acc = (cat, kw) := by
          rw [hm0] at hm
          exact Except.ok.inj hm
        subst hacc
        rw [if_neg hni] at h
        have hl2 : dictLookup (appendToBucket part cat { t with category := some cat }) cat
            = some ((dictLookup part cat).getD [] ++ [{ t with category := some cat }]) := by
          unfold appendToBucket
          exact dictLookup_dictInsert_self _ _ _
        exact categorizeGo_mem_preserved km ts _ _ _ _ _ _ _ h hl2
          (List.mem_append_right _ (List.mem_singleton_self _))
      · by_cases hi : acc.1 = "Ignore"
        · rw [if_pos hi] at h
          exact ih _ _ _ _ h t hts cat kw hm hni
        · rw [if_neg hi] at h
          exact ih _ _ _ _ h t hts cat kw hm hni

theorem filterTwice {α : Type} (p q : α → Bool) (l : List α) :
    (l.filter p).filter q = (l.filter q).filter p := by
  induction l with
  | nil => rfl
  | cons a l ih =>
    by_cases hp : p a = true <;> by_cases hq : q a = true <;>
      simp [List.filter_cons, hp, hq, ih]

theorem categorizeGo_filter_ignore (km : List (String × List String)) (ts : List Transaction) :
    ∀ part unc,
      categorizeGo km (ts.filter (fun t => !(ignoreMatched km t))) part unc
        = categorizeGo km ts part unc := by
  induction ts with
  | nil => intro part unc; rfl
  | cons t ts ih =>
    intro part unc
    cases hm : matchCategory km t.description with
    | error e =>
      have hkeep : (!(ignoreMatched km t)) = true := by
        simp [ignoreMatched, hm]
      rw [List.filter_cons, if_pos hkeep]
      simp only [categorizeGo, hm]
    | ok acc =>
      by_cases hi : acc.1 = "Ignore"
      · have hdrop : (!(ignoreMatched km t)) = false := by
          simp [ignoreMatched, hm, hi]
        rw [List.filter_cons, if_neg (by simp [hdrop])]
        simp only [categorizeGo, hm, if_pos hi]
        exact ih part unc
      · have hkeep : (!(ignoreMatched km t)) = true := by
          simp [ignoreMatched, hm, hi]
        rw [List.filter_cons, if_pos hkeep]
        simp only [categorizeGo, hm, if_neg hi]
        exact ih _ _

theorem dictLookup_spentTable (part : List (String × List Transaction)) :
    keysNodup part →
    ∀ ckv ∈ part, dictLookup (spentTable part) ckv.1
      = some ((ckv.2.map (fun t => |t.amount|)).sum) := by
  induction part with
  | nil =>
    intro _ ckv hc
    exact absurd hc (List.not_mem_nil ckv)
  | cons kv rest ih =>
    intro h ckv hc
    have hnd := List.nodup_cons.mp h
    rcases List.mem_cons.mp hc with rfl | h3
    · simp [spentTable, dictLookup]
    · have hk : kv.1 ≠ ckv.1 := by
        intro he
        apply hnd.1
        rw [he]
        exact List.mem_map_of_mem Prod.fst h3
      simp only [spentTable, List.map_cons, dictLookup]
      rw [if_neg hk]
      exact ih hnd.2 ckv h3

theorem calculate_budget_status_eq (part : List (String × List Transaction))
    (h : keysNodup part) (budget : List (String × ℚ)) :
    calculate_budget_status part budget
      = part.map (fun ckv =>
          (ckv.1,
            ({ budget := (dictLookup budget ckv.1).getD 0,
               spent := (ckv.2.map (fun t => |t.amount|)).sum,
               percentage_used :=
                 if 0 < (dictLookup budget ckv.1).getD 0 then
                   (ckv.2.map (fun t => |t.amount|)).sum
                     / (dictLookup budget ckv.1).getD 0 * 100
                 else 0 } : CategoryStatus))) := by
  unfold calculate_budget_status
  rw [List.map_map]
  apply List.map_congr_left
  intro ckv hc
  simp only [Function.comp_apply]
  rw [dictLookup_spentTable part h ckv hc]
  by_cases hb : 0 < (dictLookup budget ckv.1).getD 0
  · simp [hb]
  · simp [hb]

theorem pas_processed_amounts (part : List (String × List Transaction)) (ts : List Transaction) :
    ∀ st : PasState,
      ((ts.foldl (pasStep part) st).processed).map (fun r => r.amount)
        = st.processed.map (fun r => r.amount) ++ ts.map (fun t => -t.amount) := by
  induction ts with
  | nil => intro st; simp
  | cons t ts ih =>
    intro st
    rw [List.foldl_cons, ih]
    simp [pasStep]

end BudgetBuddy

namespace BudgetBuddy

/-- C1 (amended): the matcher does not stop at the first matching category —
the `break` at line 115 leaves only the phrase loop, so the last declared
category containing a matching phrase wins, overriding any earlier match, and
the recorded phrase is the first matching phrase within that category. -/
theorem C1_last_matching_category_wins (xs : List (String × List String)) (key : String)
    (vs : List String) (desc : String) (acc2 : String × Option String) (v : String)
    (h1 : matchLoop xs (strLower desc) ("Uncategorized", none) = .ok acc2)
    (h2 : firstMatch vs (strLower desc) = .ok (some v)) :
    matchCategory (xs ++ [(key, vs)]) desc = .ok (key, some v) := by
  unfold matchCategory
  rw [matchLoop_append, h1]
  simp [matchLoop, h2]

/-- Witness for C1 at the spec's own example: the earlier category `Food`
matches, the appended category `Dining` also matches, and the matcher returns
`Dining`, not `Food`. -/
theorem C1_last_matching_category_wins_witness :
    matchLoop [("Food", ["grocery"])] (strLower "Grocery Restaurant Co") ("Uncategorized", none)
        = .ok ("Food", some "grocery") ∧
    firstMatch ["restaurant"] (strLower "Grocery Restaurant Co") = .ok (some "restaurant") ∧
    matchCategory [("Food", ["grocery"]), ("Dining", ["restaurant"])] "Grocery Restaurant Co"
        = .ok ("Dining", some "restaurant") :=
  ⟨by with_unfolding_all decide, by with_unfolding_all decide,
    C1_last_matching_category_wins [("Food", ["grocery"])] "Dining" ["restaurant"]
      "Grocery Restaurant Co" ("Food", some "grocery") "restaurant"
      (by with_unfolding_all decide) (by with_unfolding_all decide)⟩

/-- C1 counterexample: on the claim's own instance — mapping
`[Food ↦ [grocery], Dining ↦ [restaurant]]`, description
`"Grocery Restaurant Co"` — the code's matcher yields `Dining`, while the
claim asserts the result is `Food`. -/
theorem C1_counterexample :
    matchCategory [("Food", ["grocery"]), ("Dining", ["restaurant"])] "Grocery Restaurant Co"
        = .ok ("Dining", some "restaurant") ∧ ("Dining" : String) ≠ "Food" := by
  exact ⟨by with_unfolding_all decide, by decide⟩

/-- C3: evaluation of `merge_transactions` at the claim's inputs.  A singleton
input is dropped entirely (the final combine of lines 89-93 is guarded by a
non-empty output and there is no trailing emit branch), contradicting the
claimed singleton pass-through; the two adjacent Coffee records do merge to a
single record of amount 5.50. -/
theorem C3_merge_drops_singleton_eval :
    merge_transactions [⟨"2024-01-01", "Coffee", 3.5, some "Food"⟩] = [] ∧
    merge_transactions
        [⟨"2024-01-01", "Coffee", 3.5, some "Food"⟩, ⟨"2024-01-01", "Coffee", 2, some "Food"⟩]
      = [⟨"2024-01-01", "Coffee", 5.5, some "Food"⟩] := by
  exact ⟨by with_unfolding_all decide, by with_unfolding_all decide⟩

/-- C6 (amended): the deduplication step of `main` line 290 keeps exactly the
new records that are not whole-record equal to some existing record; equality
compares every field — date, description (case-sensitively), amount and
category — not just the (date, description) pair. -/
theorem C6_dedupe_whole_record_membership (newRecords existing : List Transaction)
    (t : Transaction) :
    t ∈ dedupe newRecords existing ↔ t ∈ newRecords ∧ t ∉ existing := by
  unfold dedupe
  simp [List.mem_filter]

/-- C6 counterexample: a new record with the same date and description
(identical case) as an existing record but a different amount and no category
field is kept by the code's dedupe, while the claim's (date, description)
contract — `dedupeSpec` — filters it out. -/
theorem C6_counterexample :
    dedupe [⟨"2024-01-01", "Coffee", 2, none⟩] [⟨"2024-01-01", "Coffee", -3.5, some "Food"⟩]
        = [⟨"2024-01-01", "Coffee", 2, none⟩] ∧
    dedupeSpec [⟨"2024-01-01", "Coffee", 2, none⟩] [⟨"2024-01-01", "Coffee", -3.5, some "Food"⟩]
        = [] ∧
    ([⟨"2024-01-01", "Coffee", 2, none⟩] : List Transaction) ≠ [] := by
  exact ⟨by with_unfolding_all decide, by with_unfolding_all decide, by with_unfolding_all decide⟩

/-- C2: evaluation of the pipeline at a concrete batch.  The first run appends
one row; the second run on the same raw input appends the same row again —
raw rows (positive amount, no category field) are never whole-record equal to
persisted rows (negated amount, category present), so the line-290 filter
removes nothing and the store gains duplicates. -/
theorem C2_second_run_appends_duplicates :
    (runPipeline [] rerunRaw rerunKm).map (fun r => r.1) = .ok [rerunRow] ∧
    (runPipeline [rerunRow] rerunRaw rerunKm).map (fun r => r.1) = .ok [rerunRow, rerunRow] ∧
    ([rerunRow, rerunRow] : List Transaction) ≠ [rerunRow] ∧
    ([rerunRow, rerunRow].count rerunRow) = 2 := by
  refine ⟨?_, ?_, ?_, ?_⟩ <;> with_unfolding_all decide

/-- C4 (amended): every transaction whose matcher result is a non-`Ignore`
category — `Uncategorized` included — is appended to that category's bucket in
the partition, but the classifier's returned unmatched sequence is always
empty: line 125 only ever filters the unmatched accumulator and nothing
appends to it; unmatched transactions are collected later, inside
`process_and_store_transactions`. -/
theorem C4_unmatched_list_always_empty (ts : List Transaction)
    (km : List (String × List String)) (part : List (String × List Transaction))
    (unc : List Transaction)
    (h : categorize_transactions ts km = .ok (part, unc)) :
    unc = [] ∧
    ∀ t ∈ ts, ∀ cat kw, matchCategory km t.description = .ok (cat, kw) → cat ≠ "Ignore" →
      ∃ b, dictLookup part cat = some b ∧ ({ t with category := some cat }) ∈ b := by
  unfold categorize_transactions at h
  exact ⟨categorizeGo_unc_nil km ts _ _ _ h, categorizeGo_mem km ts _ _ _ _ h⟩

/-- Witness for C4: at a one-transaction batch matching no phrase, the
classifier succeeds, its unmatched output is empty, and the transaction sits
in the `Uncategorized` bucket. -/
theorem C4_unmatched_list_always_empty_witness :
    ([] : List Transaction) = [] ∧
    (⟨"2024-01-02", "Xyz Shop", 4, some "Uncategorized"⟩ : Transaction)
      ∈ [(⟨"2024-01-02", "Xyz Shop", 4, some "Uncategorized"⟩ : Transaction)] := by
  have happ := C4_unmatched_list_always_empty
      [⟨"2024-01-02", "Xyz Shop", 4, none⟩] [("Food", ["grocery"])]
      [("Food", []), ("Uncategorized", [⟨"2024-01-02", "Xyz Shop", 4, some "Uncategorized"⟩])] []
      (by with_unfolding_all decide)
  refine ⟨happ.1, ?_⟩
  obtain ⟨b, hb, hmem⟩ := happ.2 ⟨"2024-01-02", "Xyz Shop", 4, none⟩ (by simp)
      "Uncategorized" none (by with_unfolding_all decide) (by decide)
  have hlit : dictLookup [("Food", ([] : List Transaction)),
      ("Uncategorized", [⟨"2024-01-02", "Xyz Shop", 4, some "Uncategorized"⟩])] "Uncategorized"
      = some [(⟨"2024-01-02", "Xyz Shop", 4, some "Uncategorized"⟩ : Transaction)] := by
    with_unfolding_all decide
  rw [hlit] at hb
  rw [(Option.some.inj hb).symm] at hmem
  exact hmem

/-- C4 counterexample: a transaction matching no phrase lands in the
`Uncategorized` bucket, yet the returned unmatched list is empty — while the
claim requires the transaction to be a member of that returned list. -/
theorem C4_counterexample :
    categorize_transactions [⟨"2024-01-02", "Xyz Shop", 4, none⟩] [("Food", ["grocery"])]
        = .ok ([("Food", []),
                ("Uncategorized", [⟨"2024-01-02", "Xyz Shop", 4, some "Uncategorized"⟩])], []) ∧
    (⟨"2024-01-02", "Xyz Shop", 4, some "Uncategorized"⟩ : Transaction)
        ∉ ([] : List Transaction) := by
  exact ⟨by with_unfolding_all decide, by simp⟩

/-- C5: transactions the matcher resolves to the reserved category `Ignore`
are dropped from all downstream processing: removing them from the raw batch
beforehand changes nothing about a pipeline run — not the persisted store, not
the partition, and not the unmatched list. -/
theorem C5_ignore_dropped_everywhere (store raw : List Transaction)
    (km : List (String × List String)) :
    runPipeline store (raw.filter (fun t => !(ignoreMatched km t))) km
      = runPipeline store raw km := by
  unfold runPipeline
  have hd : dedupe (raw.filter (fun t => !(ignoreMatched km t))) store
      = (dedupe raw store).filter (fun t => !(ignoreMatched km t)) := by
    unfold dedupe
    exact filterTwice _ _ raw
  rw [hd]
  unfold categorize_transactions
  rw [categorizeGo_filter_ignore]

/-- C7: per category the aggregator computes the spent sum of absolute bucket
amounts, the budget looked up with default 0, and a percentage of
`spent / budget * 100` exactly when the budget is positive and 0 otherwise;
with an empty budget mapping every percentage is 0 and the computation is
total — no division by zero can occur. -/
theorem C7_budget_formula_and_zero_division_safety (part : List (String × List Transaction))
    (h : keysNodup part) (budget : List (String × ℚ)) :
    calculate_budget_status part budget
      = part.map (fun ckv =>
          (ckv.1,
            ({ budget := (dictLookup budget ckv.1).getD 0,
               spent := (ckv.2.map (fun t => |t.amount|)).sum,
               percentage_used :=
                 if 0 < (dictLookup budget ckv.1).getD 0 then
                   (ckv.2.map (fun t => |t.amount|)).sum
                     / (dictLookup budget ckv.1).getD 0 * 100
                 else 0 } : CategoryStatus))) ∧
    ∀ e ∈ calculate_budget_status part [], e.2.percentage_used = 0 := by
  refine ⟨calculate_budget_status_eq part h budget, ?_⟩
  intro e he
  rw [calculate_budget_status_eq part h []] at he
  obtain ⟨ckv, hc, rfl⟩ := List.mem_map.mp he
  simp [dictLookup]

/-- Witness for C7: one category with a 50-magnitude outflow against a budget
of 200 gets spent 50 and percentage 25. -/
theorem C7_budget_formula_witness :
    calculate_budget_status [("Food", [⟨"2024-01-05", "Grocery Mart", -50, some "Food"⟩])]
        [("Food", 200)]
      = [("Food", ⟨200, 50, 25⟩)] :=
  ((C7_budget_formula_and_zero_division_safety
      [("Food", [⟨"2024-01-05", "Grocery Mart", -50, some "Food"⟩])]
      (by with_unfolding_all decide) [("Food", 200)]).1).trans (by with_unfolding_all decide)

/-- C8: a category is reported over budget iff spent exceeds budget and the
budget is positive, with reported amount spent minus budget; and at spent 350
against budget 300 the warning carries amount 50 while the percentage, never
clamped, exceeds 100. -/
theorem C8_overage_iff :
    (∀ (statuses : List (String × CategoryStatus)) (e : String × ℚ),
        e ∈ overage_warnings statuses ↔
          ∃ st : CategoryStatus, (e.1, st) ∈ statuses ∧ st.budget < st.spent ∧ 0 < st.budget ∧
            e.2 = st.spent - st.budget) ∧
    calculate_budget_status overagePart overageBudget
        = [("Dining", ⟨300, 350, 350 / 300 * 100⟩)] ∧
    overage_warnings (calculate_budget_status overagePart overageBudget) = [("Dining", 50)] ∧
    (100 : ℚ) < 350 / 300 * 100 := by
  refine ⟨?_, by with_unfolding_all decide, by with_unfolding_all decide,
    by with_unfolding_all decide⟩
  intro statuses e
  obtain ⟨c, a⟩ := e
  unfold overage_warnings
  rw [List.mem_filterMap]
  constructor
  · rintro ⟨cs, hcs, hsome⟩
    by_cases hcond : cs.2.spent > cs.2.budget ∧ 0 < cs.2.budget
    · rw [if_pos hcond] at hsome
      have hpair := Option.some.inj hsome
      have hc1 : cs.1 = c := congrArg Prod.fst hpair
      have ha : |cs.2.spent - cs.2.budget| = a := congrArg Prod.snd hpair
      refine ⟨cs.2, ?_, hcond.1, hcond.2, ?_⟩
      · have hcs2 : (cs.1, cs.2) ∈ statuses := hcs
        rw [hc1] at hcs2
        exact hcs2
      · rw [← ha, abs_of_pos (sub_pos.mpr hcond.1)]
    · rw [if_neg hcond] at hsome
      exact absurd hsome (by simp)
  · rintro ⟨st, hmem, h1, h2, h3⟩
    refine ⟨(c, st), hmem, ?_⟩
    rw [if_pos (show st.spent > st.budget ∧ 0 < st.budget from ⟨h1, h2⟩)]
    have h3a : a = st.spent - st.budget := h3
    rw [h3a, abs_of_pos (sub_pos.mpr h1)]

/-- C9: rows staged for the store carry exactly the negation of their input
record's amount; merge output amounts are non-negative magnitudes (so in the
pipeline the persisted amount is the negated magnitude, a non-positive value);
and the aggregator's spent sums are invariant under flipping the signs of all
bucket amounts. -/
theorem C9_sign_convention :
    (∀ (ts : List Transaction) (part : List (String × List Transaction))
        (unc : List Transaction),
        ((process_and_store_transactions ts part unc).processed).map (fun r => r.amount)
          = ts.map (fun t => -t.amount)) ∧
    (∀ (l : List Transaction) (t : Transaction), t ∈ merge_transactions l → 0 ≤ t.amount) ∧
    (∀ part : List (String × List Transaction),
        spentTable
            (part.map (fun ckv =>
              (ckv.1, ckv.2.map (fun t => { t with amount := -t.amount }))))
          = spentTable part) := by
  refine ⟨?_, ?_, ?_⟩
  · intro ts part unc
    unfold process_and_store_transactions
    rw [pas_processed_amounts]
    simp
  · intro l t ht
    unfold merge_transactions at ht
    obtain ⟨u, hu, rfl⟩ := List.mem_map.mp ht
    exact abs_nonneg u.amount
  · intro part
    unfold spentTable
    rw [List.map_map]
    apply List.map_congr_left
    intro ckv hc
    simp [List.map_map, Function.comp_def, abs_neg]

/-- Witness for C9: the merged Coffee record has a non-negative amount. -/
theorem C9_sign_convention_witness :
    (0 : ℚ) ≤ (⟨"2024-01-01", "Coffee", 5.5, some "Food"⟩ : Transaction).amount :=
  C9_sign_convention.2.1
    [⟨"2024-01-01", "Coffee", 3.5, some "Food"⟩, ⟨"2024-01-01", "Coffee", 2, some "Food"⟩]
    ⟨"2024-01-01", "Coffee", 5.5, some "Food"⟩ (by with_unfolding_all decide)

/-- C10: trigger phrases are regex patterns, not literals.  The phrase
`coffee+` classifies the description `"Zzz coffeee"` (which does not contain
`coffee+` as a literal substring) into its category, and a phrase `(` makes
classification raise instead of returning. -/
theorem C10_regex_phrase_semantics :
    matchCategory [("Coffee", ["coffee+"])] "Zzz coffeee" = .ok ("Coffee", some "coffee+") ∧
    literalSubstring "coffee+" (strLower "Zzz coffeee") = false ∧
    categorize_transactions [⟨"2024-01-04", "Paren Shop", 1, none⟩] [("X", ["("])]
        = .error () := by
  refine ⟨?_, ?_, ?_⟩ <;> with_unfolding_all decide

end BudgetBuddy
